import Mathlib

/-!
Shallow embedding of `src/SmileFetcher.py` (PubChem SMILES fetcher).

Conventions of the embedding:
* A Python string is a `List Char`; an input spreadsheet cell that may be
  null/NaN is an `Option (List Char)` (`none` models `pd.isna(name)` true).
* `str.replace(old, new)` with a one-character `old` is `replaceAll`.
* The HTTP world is an oracle `env : Bool → List Char → HttpResult` mapping
  (is_substance, encoded name in the URL) to the outcome of
  `requests.get` / `raise_for_status` / JSON parsing for that request.
* Python exceptions on the file boundary are `Except (List Char) _` values;
  a `try/except` block is a `match` on them.
-/

namespace SmileFetcher

/-- One pass of Python `name.replace(key, value)` where `key` is a single
character: every occurrence of `key` in `s` is replaced by `value`. -/
def replaceAll (key : Char) (value : List Char) : List Char → List Char
  | [] => []
  | c :: cs => (if c = key then value else [c]) ++ replaceAll key value cs

/-- `replace_special_characters` (SmileFetcher.py lines 9-21): null/NaN becomes
`""`; otherwise the Greek letters α, β, γ, δ are replaced by their Latin
spellings, applied in the dict's insertion order α, β, γ, δ. -/
def replace_special_characters (name : Option (List Char)) : List Char :=
  match name with
  | none => []
  | some s =>
      replaceAll 'δ' ("delta".data)
        (replaceAll 'γ' ("gamma".data)
          (replaceAll 'β' ("beta".data)
            (replaceAll 'α' ("alpha".data) s)))

/-- `replace_special_characters_for_hyperlink` (SmileFetcher.py lines 23-37):
null/NaN becomes `""`; otherwise the replacements are applied in the dict's
insertion order: first `,`→`%2c`, then space→`%20`, then the four Greek
substitutions. -/
def replace_special_characters_for_hyperlink (name : Option (List Char)) : List Char :=
  match name with
  | none => []
  | some s =>
      replaceAll 'δ' ("delta".data)
        (replaceAll 'γ' ("gamma".data)
          (replaceAll 'β' ("beta".data)
            (replaceAll 'α' ("alpha".data)
              (replaceAll ' ' ("%20".data)
                (replaceAll ',' ("%2c".data) s)))))

/-- The literal status string `"compound found"` returned on line 50. -/
def statusCompoundFound : List Char := "compound found".data

/-- The literal status string `"substance"` returned on line 50. -/
def statusSubstance : List Char := "substance".data

/-- The literal status string `"not found"` returned on lines 59 and 62. -/
def statusNotFound : List Char := "not found".data

/-- Outcome of one HTTP request in `get_pubchem_info`, as observed by the
`try` block (lines 44-49):
* `ok cid smiles` — 2xx status and the JSON body parses with
  `PropertyTable.Properties[0].CID` / `.CanonicalSMILES` present;
* `okMalformed` — 2xx status but `response.json()` or the key lookups raise
  (caught by the generic `except Exception`);
* `httpError status` — `raise_for_status` raised `HTTPError` for this
  non-2xx `status`;
* `transportError` — `requests.get` itself raised (connection error etc.),
  caught by the generic `except Exception`. -/
inductive HttpResult where
  | ok (cid : Int) (smiles : List Char)
  | okMalformed
  | httpError (status : Nat)
  | transportError
  deriving Repr, DecidableEq

/-- `get_pubchem_info` (SmileFetcher.py lines 39-62) against the HTTP oracle
`env`. The name is normalized (line 40), URL-encoded into the request URL
(line 42); on success the CID/SMILES and a status string are returned
(line 50); an `HTTPError` with status 404 in compound mode recurses once in
substance mode (lines 52-54); every other failure prints a diagnostic and
returns `(None, None, "not found")` (lines 55-62). -/
def get_pubchem_info (env : Bool → List Char → HttpResult)
    (compound_name : Option (List Char)) (is_substance : Bool) :
    Option Int × Option (List Char) × List Char :=
  let name := replace_special_characters compound_name
  let encoded := replace_special_characters_for_hyperlink (some name)
  match env is_substance encoded with
  | HttpResult.ok cid smiles =>
      (some cid, some smiles, if is_substance then statusSubstance else statusCompoundFound)
  | HttpResult.httpError status =>
      if h : status = 404 ∧ is_substance = false then
        get_pubchem_info env (some name) true
      else
        (none, none, statusNotFound)
  | HttpResult.okMalformed => (none, none, statusNotFound)
  | HttpResult.transportError => (none, none, statusNotFound)
termination_by (if is_substance then 0 else 1)
decreasing_by simp [h.2]

/-- The requests `get_pubchem_info` issues, in order, as
(is_substance, encoded name) pairs: one request per `requests.get` call
(line 45), with the single recursive fallback of line 54 mirrored. -/
def get_pubchem_requests (env : Bool → List Char → HttpResult)
    (compound_name : Option (List Char)) (is_substance : Bool) :
    List (Bool × List Char) :=
  let name := replace_special_characters compound_name
  let encoded := replace_special_characters_for_hyperlink (some name)
  (is_substance, encoded) ::
    match env is_substance encoded with
    | HttpResult.httpError status =>
        if h : status = 404 ∧ is_substance = false then
          get_pubchem_requests env (some name) true
        else []
    | _ => []
termination_by (if is_substance then 0 else 1)
decreasing_by simp [h.2]

/-- The encoded name that `get_pubchem_info` embeds in the request URL for
input `name`: URL-encoding applied to the normalized name (lines 40 and 42). -/
def encodedOf (name : Option (List Char)) : List Char :=
  replace_special_characters_for_hyperlink (some (replace_special_characters name))

/-- One data row of the output worksheet (columns A-E of rows 2..max_row):
cell values for name (A), PubChem ID (B), SMILES (C), status (D) and
hyperlink label (E), each cell's background-fill color (the six-digit hex
string of its `PatternFill`, `none` for no fill), and the E cell's hyperlink
target. `none` as a value models a blank cell. -/
structure DataRow where
  name : Option (List Char)
  cid : Option Int
  smiles : Option (List Char)
  status : Option (List Char)
  hyperlinkValue : Option (List Char)
  nameFill : Option (List Char)
  cidFill : Option (List Char)
  smilesFill : Option (List Char)
  statusFill : Option (List Char)
  hyperlinkFill : Option (List Char)
  hyperlinkTarget : Option (List Char)
  deriving Repr, DecidableEq

/-- The four summary figures written two rows below the data
(SmileFetcher.py lines 88-106). -/
structure SummaryCounts where
  total : Nat
  foundAsCompound : Nat
  foundAsSubstance : Nat
  notFound : Nat
  deriving Repr, DecidableEq

/-- The `fill_colors` dict of lines 68-72 as a lookup: the fill color for a
status-cell value, `none` when the status is not a key of the dict. -/
def fill_colors (status : List Char) : Option (List Char) :=
  if status = statusCompoundFound then some ("92D050".data)
  else if status = statusSubstance then some ("FFC000".data)
  else if status = statusNotFound then some ("FF3300".data)
  else none

/-- The hyperlink URL built on line 84:
`https://pubchem.ncbi.nlm.nih.gov/#query={hyperlink_name}`. -/
def pubchem_query_url (hyperlink_name : List Char) : List Char :=
  ("https://pubchem.ncbi.nlm.nih.gov/#query=".data) ++ hyperlink_name

/-- The body of the per-row styling loop of `apply_formatting`
(SmileFetcher.py lines 74-86): if the D-cell value is a key of
`fill_colors`, set the D cell's fill; if moreover the status is
`"not found"` and the A-cell name is truthy (non-null and non-empty), write
the URL-encoded name and its query hyperlink into the E cell. -/
def formatRow (r : DataRow) : DataRow :=
  match r.status with
  | none => r
  | some status =>
      match fill_colors status with
      | none => r
      | some color =>
          let r1 := { r with statusFill := some color }
          if status = statusNotFound then
            match r.name with
            | none => r1
            | some compound_name =>
                if compound_name = [] then r1
                else
                  let hyperlink_name :=
                    replace_special_characters_for_hyperlink (some compound_name)
                  { r1 with
                      hyperlinkTarget := some (pubchem_query_url hyperlink_name),
                      hyperlinkValue := some hyperlink_name }
          else r1

/-- `apply_formatting` (SmileFetcher.py lines 64-108) on the data rows of the
worksheet: style each data row, then compute the summary counts — `total` is
`max_row - 1` (the number of data rows) and each category count scans the
D column (lines 88-92). The summary label/value rows written on lines
94-106 are represented by the returned `SummaryCounts`. -/
def apply_formatting (rows : List DataRow) : List DataRow × SummaryCounts :=
  let rows2 := rows.map formatRow
  (rows2,
   { total := rows2.length,
     foundAsCompound := rows2.countP (fun r => decide (r.status = some statusCompoundFound)),
     foundAsSubstance := rows2.countP (fun r => decide (r.status = some statusSubstance)),
     notFound := rows2.countP (fun r => decide (r.status = some statusNotFound)) })

/-- One entry of `results` (SmileFetcher.py lines 122-124) as it lands in the
output worksheet via `to_excel`: `[compound, cid, smiles, status, ""]`, with
no fills and no hyperlink on a freshly written sheet. -/
def toResultRow (env : Bool → List Char → HttpResult)
    (compound : Option (List Char)) : DataRow :=
  { name := compound,
    cid := (get_pubchem_info env compound false).1,
    smiles := (get_pubchem_info env compound false).2.1,
    status := some (get_pubchem_info env compound false).2.2,
    hyperlinkValue := some [],
    nameFill := none, cidFill := none, smilesFill := none,
    statusFill := none, hyperlinkFill := none,
    hyperlinkTarget := none }

/-- The `results` accumulation loop of `main` (SmileFetcher.py lines
120-126): one output row per input name, in input order. -/
def buildResults (env : Bool → List Char → HttpResult)
    (compound_names : List (Option (List Char))) : List DataRow :=
  compound_names.map (toResultRow env)

/-- How a run of `main` ends: the input read failed and was reported
(lines 116-118), a persist step failed inside the `try` of lines 131-136 and
was reported (line 136), or the processed file was saved and the success
message printed (line 134). Each constructor is a normal return of `main`;
there is no constructor for an uncaught exception. -/
inductive MainOutcome where
  | readError (e : List Char)
  | saveError (e : List Char)
  | completed (artifact : List DataRow × SummaryCounts)
  deriving Repr, DecidableEq

/-- `main` (SmileFetcher.py lines 110-136). `readInput` models
`pd.read_excel` + first-column extraction; `writeTable` models
`result_df.to_excel` (the first persist step); `saveFormatted` models the
`load_workbook` / `workbook.save` round trip inside `apply_formatting` (the
second persist step), fed the styled artifact. Failures of the two persist
steps are caught by the `try/except` of lines 131-136. -/
def main (env : Bool → List Char → HttpResult)
    (readInput : Except (List Char) (List (Option (List Char))))
    (writeTable : List DataRow → Except (List Char) Unit)
    (saveFormatted : List DataRow × SummaryCounts → Except (List Char) Unit) :
    MainOutcome :=
  match readInput with
  | Except.error e => MainOutcome.readError e
  | Except.ok compound_names =>
      let results := buildResults env compound_names
      match writeTable results with
      | Except.error e => MainOutcome.saveError e
      | Except.ok _ =>
          let formatted := apply_formatting results
          match saveFormatted formatted with
          | Except.error e => MainOutcome.saveError e
          | Except.ok _ => MainOutcome.completed formatted

/-- Modelled from the spec's words for the refinement claim about
`urlEncode`: the plain comma/space percent-encoding pass on its own
("replaces comma with `%2c` and space with `%20`"), to be composed after
`replace_special_characters`. -/
def spec_percent_encode (s : List Char) : List Char :=
  replaceAll ' ' ("%20".data) (replaceAll ',' ("%2c".data) s)

/-! ## Lemmas about `replaceAll` -/

theorem replaceAll_append (k : Char) (v s t : List Char) :
    replaceAll k v (s ++ t) = replaceAll k v s ++ replaceAll k v t := by
  induction s with
  | nil => rfl
  | cons c cs ih => simp [replaceAll, ih]

theorem replaceAll_of_not_mem (k : Char) (v s : List Char) (h : k ∉ s) :
    replaceAll k v s = s := by
  induction s with
  | nil => rfl
  | cons c cs ih =>
      have h1 : ¬ (c = k) := fun hc => h (by rw [hc]; exact List.mem_cons_self k cs)
      have h2 : k ∉ cs := fun hm => h (List.mem_cons_of_mem c hm)
      simp [replaceAll, h1, ih h2]

theorem not_mem_replaceAll_key (k : Char) (v : List Char) (hv : k ∉ v) :
    ∀ s : List Char, k ∉ replaceAll k v s := by
  intro s
  induction s with
  | nil => simp [replaceAll]
  | cons a as ih =>
      simp only [replaceAll, List.mem_append]
      rintro (h | h)
      · split at h
        · exact hv h
        · next hak => simp at h; exact hak h.symm
      · exact ih h

theorem not_mem_replaceAll_other (c k : Char) (v : List Char) (hv : c ∉ v) :
    ∀ s : List Char, c ∉ s → c ∉ replaceAll k v s := by
  intro s
  induction s with
  | nil => intro _; simp [replaceAll]
  | cons a as ih =>
      intro hs
      have h1 : ¬ (c = a) := fun hc => hs (by rw [hc]; exact List.mem_cons_self a as)
      have h2 : c ∉ as := fun hm => hs (List.mem_cons_of_mem a hm)
      simp only [replaceAll, List.mem_append]
      rintro (h | h)
      · split at h
        · exact hv h
        · simp at h; exact h1 h
      · exact ih h2 h

theorem replaceAll_comm (k1 k2 : Char) (v1 v2 : List Char) (hk : k1 ≠ k2)
    (h1 : k2 ∉ v1) (h2 : k1 ∉ v2) (s : List Char) :
    replaceAll k2 v2 (replaceAll k1 v1 s) = replaceAll k1 v1 (replaceAll k2 v2 s) := by
  induction s with
  | nil => rfl
  | cons c cs ih =>
      simp only [replaceAll, replaceAll_append, ih]
      congr 1
      by_cases hc1 : c = k1
      · subst hc1
        rw [if_pos rfl, if_neg hk]
        rw [replaceAll_of_not_mem _ _ _ h1]
        simp [replaceAll]
      · by_cases hc2 : c = k2
        · subst hc2
          rw [if_neg hc1, if_pos rfl]
          rw [replaceAll_of_not_mem _ _ _ h2]
          simp [replaceAll]
        · rw [if_neg hc1, if_neg hc2]
          simp [replaceAll, hc1, hc2]

/-! ## Lemmas about the normalizers -/

theorem replace_special_characters_no_greek (name : Option (List Char)) :
    'α' ∉ replace_special_characters name ∧ 'β' ∉ replace_special_characters name ∧
    'γ' ∉ replace_special_characters name ∧ 'δ' ∉ replace_special_characters name := by
  cases name with
  | none => simp [replace_special_characters]
  | some s =>
      simp only [replace_special_characters]
      refine ⟨?_, ?_, ?_, ?_⟩
      · exact not_mem_replaceAll_other 'α' 'δ' _ (by decide) _
          (not_mem_replaceAll_other 'α' 'γ' _ (by decide) _
            (not_mem_replaceAll_other 'α' 'β' _ (by decide) _
              (not_mem_replaceAll_key 'α' _ (by decide) s)))
      · exact not_mem_replaceAll_other 'β' 'δ' _ (by decide) _
          (not_mem_replaceAll_other 'β' 'γ' _ (by decide) _
            (not_mem_replaceAll_key 'β' _ (by decide) _))
      · exact not_mem_replaceAll_other 'γ' 'δ' _ (by decide) _
          (not_mem_replaceAll_key 'γ' _ (by decide) _)
      · exact not_mem_replaceAll_key 'δ' _ (by decide) _

theorem replace_special_characters_idem (name : Option (List Char)) :
    replace_special_characters (some (replace_special_characters name)) =
      replace_special_characters name := by
  obtain ⟨ha, hb, hg, hd⟩ := replace_special_characters_no_greek name
  conv_lhs => rw [replace_special_characters]
  rw [replaceAll_of_not_mem _ _ _ ha, replaceAll_of_not_mem _ _ _ hb,
    replaceAll_of_not_mem _ _ _ hg, replaceAll_of_not_mem _ _ _ hd]

theorem encodedOf_norm (name : Option (List Char)) :
    encodedOf (some (replace_special_characters name)) = encodedOf name := by
  unfold encodedOf
  rw [replace_special_characters_idem]

/-! ## Unfolding lemmas for the resolver -/

theorem get_pubchem_info_substance (env : Bool → List Char → HttpResult)
    (name : Option (List Char)) :
    get_pubchem_info env name true =
      match env true (encodedOf name) with
      | HttpResult.ok cid smiles => (some cid, some smiles, statusSubstance)
      | _ => (none, none, statusNotFound) := by
  rw [get_pubchem_info]
  have e : replace_special_characters_for_hyperlink
      (some (replace_special_characters name)) = encodedOf name := rfl
  rw [e]
  cases h : env true (encodedOf name) <;> simp [h]

theorem get_pubchem_info_compound (env : Bool → List Char → HttpResult)
    (name : Option (List Char)) :
    get_pubchem_info env name false =
      match env false (encodedOf name) with
      | HttpResult.ok cid smiles => (some cid, some smiles, statusCompoundFound)
      | HttpResult.httpError status =>
          if status = 404 then
            get_pubchem_info env (some (replace_special_characters name)) true
          else (none, none, statusNotFound)
      | _ => (none, none, statusNotFound) := by
  rw [get_pubchem_info]
  have e : replace_special_characters_for_hyperlink
      (some (replace_special_characters name)) = encodedOf name := rfl
  rw [e]
  cases h : env false (encodedOf name) <;> simp [h]

theorem get_pubchem_requests_substance (env : Bool → List Char → HttpResult)
    (name : Option (List Char)) :
    get_pubchem_requests env name true = [(true, encodedOf name)] := by
  rw [get_pubchem_requests]
  have e : replace_special_characters_for_hyperlink
      (some (replace_special_characters name)) = encodedOf name := rfl
  rw [e]
  cases h : env true (encodedOf name) <;> simp [h]

theorem get_pubchem_requests_compound (env : Bool → List Char → HttpResult)
    (name : Option (List Char)) :
    get_pubchem_requests env name false =
      (false, encodedOf name) ::
        (match env false (encodedOf name) with
         | HttpResult.httpError status =>
             if status = 404 then
               get_pubchem_requests env (some (replace_special_characters name)) true
             else []
         | _ => []) := by
  rw [get_pubchem_requests]
  have e : replace_special_characters_for_hyperlink
      (some (replace_special_characters name)) = encodedOf name := rfl
  rw [e]
  cases h : env false (encodedOf name) <;> simp [h]

/-- The comma/space passes commute with the four Greek passes: the keys are
pairwise distinct and no replacement value contains another pass's key. -/
theorem hyperlink_eq_percent_after_greek (s : List Char) :
    replaceAll 'δ' ("delta".data)
      (replaceAll 'γ' ("gamma".data)
        (replaceAll 'β' ("beta".data)
          (replaceAll 'α' ("alpha".data)
            (replaceAll ' ' ("%20".data)
              (replaceAll ',' ("%2c".data) s))))) =
    replaceAll ' ' ("%20".data)
      (replaceAll ',' ("%2c".data)
        (replaceAll 'δ' ("delta".data)
          (replaceAll 'γ' ("gamma".data)
            (replaceAll 'β' ("beta".data)
              (replaceAll 'α' ("alpha".data) s))))) := by
  rw [replaceAll_comm ' ' 'α' ("%20".data) ("alpha".data) (by decide) (by decide) (by decide)]
  rw [replaceAll_comm ',' 'α' ("%2c".data) ("alpha".data) (by decide) (by decide) (by decide)]
  rw [replaceAll_comm ' ' 'β' ("%20".data) ("beta".data) (by decide) (by decide) (by decide)]
  rw [replaceAll_comm ',' 'β' ("%2c".data) ("beta".data) (by decide) (by decide) (by decide)]
  rw [replaceAll_comm ' ' 'γ' ("%20".data) ("gamma".data) (by decide) (by decide) (by decide)]
  rw [replaceAll_comm ',' 'γ' ("%2c".data) ("gamma".data) (by decide) (by decide) (by decide)]
  rw [replaceAll_comm ' ' 'δ' ("%20".data) ("delta".data) (by decide) (by decide) (by decide)]
  rw [replaceAll_comm ',' 'δ' ("%2c".data) ("delta".data) (by decide) (by decide) (by decide)]

/-! ## Status facts -/

theorem statusCF_ne_sub : statusCompoundFound ≠ statusSubstance := by decide

theorem statusCF_ne_nf : statusCompoundFound ≠ statusNotFound := by decide

theorem statusSub_ne_cf : statusSubstance ≠ statusCompoundFound := by decide

theorem statusSub_ne_nf : statusSubstance ≠ statusNotFound := by decide

theorem statusNf_ne_cf : statusNotFound ≠ statusCompoundFound := by decide

theorem statusNf_ne_sub : statusNotFound ≠ statusSubstance := by decide

theorem get_pubchem_info_true_status (env : Bool → List Char → HttpResult)
    (name : Option (List Char)) :
    (get_pubchem_info env name true).2.2 = statusSubstance ∨
    (get_pubchem_info env name true).2.2 = statusNotFound := by
  rw [get_pubchem_info_substance]
  cases h : env true (encodedOf name) <;> simp

/-- Every status string `get_pubchem_info` can return is one of the three
literals of lines 50, 59 and 62. -/
theorem get_pubchem_info_status_cases (env : Bool → List Char → HttpResult)
    (name : Option (List Char)) (sub : Bool) :
    (get_pubchem_info env name sub).2.2 = statusCompoundFound ∨
    (get_pubchem_info env name sub).2.2 = statusSubstance ∨
    (get_pubchem_info env name sub).2.2 = statusNotFound := by
  cases sub with
  | true =>
      rcases get_pubchem_info_true_status env name with h | h
      · exact Or.inr (Or.inl h)
      · exact Or.inr (Or.inr h)
  | false =>
      rw [get_pubchem_info_compound]
      cases h : env false (encodedOf name) with
      | ok cid smiles => simp
      | okMalformed => simp
      | transportError => simp
      | httpError s =>
          by_cases h4 : s = 404
          · subst h4
            simp only [if_pos rfl]
            rcases get_pubchem_info_true_status env
                (some (replace_special_characters name)) with h | h
            · exact Or.inr (Or.inl h)
            · exact Or.inr (Or.inr h)
          · simp [h4]

/-! ## Worksheet facts -/

theorem fill_colors_cf : fill_colors statusCompoundFound = some ("92D050".data) := by decide

theorem fill_colors_sub : fill_colors statusSubstance = some ("FFC000".data) := by decide

theorem fill_colors_nf : fill_colors statusNotFound = some ("FF3300".data) := by decide

/-- The styling loop never changes the D-cell value. -/
theorem formatRow_status (r : DataRow) : (formatRow r).status = r.status := by
  cases hs : r.status with
  | none => simp [formatRow, hs]
  | some st =>
      cases hc : fill_colors st with
      | none => simp [formatRow, hs, hc]
      | some color =>
          by_cases hnf : st = statusNotFound
          · subst hnf
            cases hn : r.name with
            | none => simp [formatRow, hs, hc, hn]
            | some nm =>
                by_cases hne : nm = []
                · simp [formatRow, hs, hc, hn, hne]
                · simp [formatRow, hs, hc, hn, hne]
          · simp [formatRow, hs, hc, hnf]

/-- Three pairwise-distinct status values partition the rows they cover. -/
theorem countP_status_partition :
    ∀ l : List DataRow,
      (∀ r ∈ l, r.status = some statusCompoundFound ∨ r.status = some statusSubstance ∨
        r.status = some statusNotFound) →
      l.countP (fun r => decide (r.status = some statusCompoundFound)) +
      l.countP (fun r => decide (r.status = some statusSubstance)) +
      l.countP (fun r => decide (r.status = some statusNotFound)) = l.length := by
  intro l
  induction l with
  | nil => intro _; rfl
  | cons r t ih =>
      intro h
      have ht := ih (fun x hx => h x (List.mem_cons_of_mem r hx))
      rcases h r (List.mem_cons_self r t) with h1 | h1 | h1 <;>
        simp [List.countP_cons, h1, statusCF_ne_sub, statusCF_ne_nf, statusSub_ne_cf,
          statusSub_ne_nf, statusNf_ne_cf, statusNf_ne_sub] <;>
        omega

/-! ## Sample oracles and rows used by the witnesses -/

/-- Oracle: compound lookups answer 404, substance lookups succeed. -/
def envSubstanceHit : Bool → List Char → HttpResult :=
  fun b _ => if b then HttpResult.ok 962 ("O".data) else HttpResult.httpError 404

/-- Oracle: every request fails at the transport layer. -/
def envDown : Bool → List Char → HttpResult :=
  fun _ _ => HttpResult.transportError

/-- A persisted data row with status `"not found"` and a non-empty name. -/
def rowNotFound : DataRow :=
  { name := some ("a b".data), cid := none, smiles := none,
    status := some statusNotFound, hyperlinkValue := some [],
    nameFill := none, cidFill := none, smilesFill := none,
    statusFill := none, hyperlinkFill := none, hyperlinkTarget := none }

/-- A data row whose status cell is blank. -/
def rowBlankStatus : DataRow :=
  { name := none, cid := none, smiles := none, status := none,
    hyperlinkValue := none, nameFill := none, cidFill := none, smilesFill := none,
    statusFill := none, hyperlinkFill := none, hyperlinkTarget := none }

/-! ## The claims -/

/-- Claim C1: when the compound-kind lookup answers HTTP 404, `get_pubchem_info`
performs exactly one substance-kind lookup with the same encoded name and no
further requests; if that lookup succeeds it returns its identifier and
structure with status `"substance"`, and on a 404 or any other error it
returns `(none, none, "not found")`. -/
theorem compound_404_single_substance_fallback (env : Bool → List Char → HttpResult)
    (name : Option (List Char))
    (h : env false (encodedOf name) = HttpResult.httpError 404) :
    get_pubchem_requests env name false =
      [(false, encodedOf name), (true, encodedOf name)] ∧
    get_pubchem_info env name false =
      (match env true (encodedOf name) with
       | HttpResult.ok cid smiles => (some cid, some smiles, statusSubstance)
       | _ => (none, none, statusNotFound)) := by
  constructor
  · rw [get_pubchem_requests_compound, h]
    simp [get_pubchem_requests_substance, encodedOf_norm]
  · rw [get_pubchem_info_compound, h]
    simp [get_pubchem_info_substance, encodedOf_norm]

/-- Witness for C1 at a concrete oracle and name. -/
theorem compound_404_single_substance_fallback_witness :
    envSubstanceHit false (encodedOf (some ("water".data))) = HttpResult.httpError 404 ∧
    get_pubchem_requests envSubstanceHit (some ("water".data)) false =
      [(false, encodedOf (some ("water".data))), (true, encodedOf (some ("water".data)))] ∧
    get_pubchem_info envSubstanceHit (some ("water".data)) false =
      (some 962, some ("O".data), statusSubstance) := by
  have h := compound_404_single_substance_fallback envSubstanceHit (some ("water".data)) rfl
  exact ⟨rfl, h.1, h.2⟩

/-- Claim C2: in the compound state, any error other than a 404 — malformed
2xx response, transport failure, or a non-404 failure status — yields
`(none, none, "not found")` with no substance-kind fallback request, and the
surrounding per-row loop still processes every other row. -/
theorem compound_error_no_fallback (env : Bool → List Char → HttpResult)
    (name : Option (List Char))
    (h : env false (encodedOf name) = HttpResult.okMalformed ∨
         env false (encodedOf name) = HttpResult.transportError ∨
         ∃ s, s ≠ 404 ∧ env false (encodedOf name) = HttpResult.httpError s) :
    get_pubchem_info env name false = (none, none, statusNotFound) ∧
    get_pubchem_requests env name false = [(false, encodedOf name)] ∧
    ∀ pre post : List (Option (List Char)),
      buildResults env (pre ++ name :: post) =
        buildResults env pre ++ toResultRow env name :: buildResults env post := by
  refine ⟨?_, ?_, ?_⟩
  · rw [get_pubchem_info_compound]
    rcases h with h | h | ⟨s, hs, h⟩ <;> rw [h] <;> simp [hs]
  · rw [get_pubchem_requests_compound]
    rcases h with h | h | ⟨s, hs, h⟩ <;> rw [h] <;> simp [hs]
  · intro pre post
    simp [buildResults]

/-- Witness for C2 at a concrete oracle and name. -/
theorem compound_error_no_fallback_witness :
    get_pubchem_info envDown (some ("water".data)) false = (none, none, statusNotFound) ∧
    get_pubchem_requests envDown (some ("water".data)) false =
      [(false, encodedOf (some ("water".data)))] ∧
    buildResults envDown [some ("water".data), some ("salt".data)] =
      buildResults envDown [] ++
        toResultRow envDown (some ("water".data)) ::
          buildResults envDown [some ("salt".data)] := by
  have h := compound_error_no_fallback envDown (some ("water".data)) (Or.inr (Or.inl rfl))
  exact ⟨h.1, h.2.1, h.2.2 [] [some ("salt".data)]⟩

/-- Claim C3: the output table has exactly one data row per input name, in
input order: the row list has the input's length and the `i`-th row is the
resolver's row for the `i`-th input name, carrying that name. -/
theorem output_rows_match_input (env : Bool → List Char → HttpResult)
    (names : List (Option (List Char))) :
    (buildResults env names).length = names.length ∧
    ∀ i nm, names.get? i = some nm →
      ∃ r, (buildResults env names).get? i = some r ∧
        r = toResultRow env nm ∧ r.name = nm := by
  constructor
  · simp [buildResults]
  · intro i nm hget
    refine ⟨toResultRow env nm, ?_, rfl, rfl⟩
    rw [List.get?_eq_getElem?] at hget
    simp only [buildResults, List.get?_eq_getElem?, List.getElem?_map, hget]
    rfl

/-- Witness for C3 at a concrete input list. -/
theorem output_rows_match_input_witness :
    (buildResults envDown [some ("aspirin".data)]).length = 1 ∧
    ∃ r, (buildResults envDown [some ("aspirin".data)]).get? 0 = some r ∧
      r = toResultRow envDown (some ("aspirin".data)) ∧
      r.name = some ("aspirin".data) :=
  ⟨(output_rows_match_input envDown [some ("aspirin".data)]).1,
   (output_rows_match_input envDown [some ("aspirin".data)]).2 0 _ rfl⟩

/-- Claim C4: on every table the pipeline produces, the appended summary
counts satisfy `total = foundAsCompound + foundAsSubstance + notFound`,
where `total` counts the data rows and each category counts the rows whose
status cell holds that literal label. -/
theorem summary_counts_partition (env : Bool → List Char → HttpResult)
    (names : List (Option (List Char))) :
    (apply_formatting (buildResults env names)).2.total =
      (apply_formatting (buildResults env names)).2.foundAsCompound +
      (apply_formatting (buildResults env names)).2.foundAsSubstance +
      (apply_formatting (buildResults env names)).2.notFound := by
  have hall : ∀ r ∈ (buildResults env names).map formatRow,
      r.status = some statusCompoundFound ∨ r.status = some statusSubstance ∨
      r.status = some statusNotFound := by
    intro r hr
    rcases List.mem_map.mp hr with ⟨r0, hr0, rfl⟩
    rw [formatRow_status]
    simp only [buildResults] at hr0
    rcases List.mem_map.mp hr0 with ⟨nm, _, rfl⟩
    show some (get_pubchem_info env nm false).2.2 = _ ∨
      some (get_pubchem_info env nm false).2.2 = _ ∨
      some (get_pubchem_info env nm false).2.2 = _
    rcases get_pubchem_info_status_cases env nm false with h | h | h <;> simp [h]
  have hp := countP_status_partition ((buildResults env names).map formatRow) hall
  simpa [apply_formatting] using hp.symm

/-- Claim C5: the normalizer is total — modelled as a total Lean function it
can signal no error on any input — and null/NaN or empty input normalizes to
the empty string. -/
theorem normalize_null_empty (name : Option (List Char))
    (h : name = none ∨ name = some []) :
    replace_special_characters name = [] := by
  rcases h with h | h <;> subst h <;> rfl

/-- Witness for C5 at the null input. -/
theorem normalize_null_empty_witness : replace_special_characters none = [] :=
  normalize_null_empty none (Or.inl rfl)

/-- Claim C6: a string with none of the target Greek characters α, β, γ, δ is
returned unchanged by the normalizer, so the normalizer is idempotent on such
strings. -/
theorem normalize_id_of_no_greek (s : List Char)
    (h : ∀ c ∈ s, c ≠ 'α' ∧ c ≠ 'β' ∧ c ≠ 'γ' ∧ c ≠ 'δ') :
    replace_special_characters (some s) = s ∧
    replace_special_characters (some (replace_special_characters (some s))) =
      replace_special_characters (some s) := by
  have ha : 'α' ∉ s := fun hm => (h _ hm).1 rfl
  have hb : 'β' ∉ s := fun hm => (h _ hm).2.1 rfl
  have hg : 'γ' ∉ s := fun hm => (h _ hm).2.2.1 rfl
  have hd : 'δ' ∉ s := fun hm => (h _ hm).2.2.2 rfl
  have h1 : replace_special_characters (some s) = s := by
    simp only [replace_special_characters]
    rw [replaceAll_of_not_mem _ _ _ ha, replaceAll_of_not_mem _ _ _ hb,
      replaceAll_of_not_mem _ _ _ hg, replaceAll_of_not_mem _ _ _ hd]
  exact ⟨h1, by rw [h1]; exact h1⟩

/-- Witness for C6 at a concrete Greek-free string. -/
theorem normalize_id_of_no_greek_witness :
    replace_special_characters (some ("aspirin".data)) = "aspirin".data ∧
    replace_special_characters (some (replace_special_characters (some ("aspirin".data)))) =
      replace_special_characters (some ("aspirin".data)) :=
  normalize_id_of_no_greek ("aspirin".data) (by decide)

/-- Claim C7: the URL encoder equals the comma/space percent-encoding
composed after the Greek normalizer (the two passes commute, so the dict
order `,`/space-first of lines 24-31 is observably the stated order), and
its output contains no literal comma or space. -/
theorem url_encode_refines_percent_after_normalize (name : Option (List Char)) :
    replace_special_characters_for_hyperlink name =
      spec_percent_encode (replace_special_characters name) ∧
    ',' ∉ replace_special_characters_for_hyperlink name ∧
    ' ' ∉ replace_special_characters_for_hyperlink name := by
  refine ⟨?_, ?_, ?_⟩
  · cases name with
    | none => rfl
    | some s =>
        simp only [replace_special_characters_for_hyperlink, replace_special_characters,
          spec_percent_encode]
        exact hyperlink_eq_percent_after_greek s
  · cases name with
    | none => simp [replace_special_characters_for_hyperlink]
    | some s =>
        simp only [replace_special_characters_for_hyperlink]
        exact not_mem_replaceAll_other ',' 'δ' _ (by decide) _
          (not_mem_replaceAll_other ',' 'γ' _ (by decide) _
            (not_mem_replaceAll_other ',' 'β' _ (by decide) _
              (not_mem_replaceAll_other ',' 'α' _ (by decide) _
                (not_mem_replaceAll_other ',' ' ' _ (by decide) _
                  (not_mem_replaceAll_key ',' _ (by decide) s)))))
  · cases name with
    | none => simp [replace_special_characters_for_hyperlink]
    | some s =>
        simp only [replace_special_characters_for_hyperlink]
        exact not_mem_replaceAll_other ' ' 'δ' _ (by decide) _
          (not_mem_replaceAll_other ' ' 'γ' _ (by decide) _
            (not_mem_replaceAll_other ' ' 'β' _ (by decide) _
              (not_mem_replaceAll_other ' ' 'α' _ (by decide) _
                (not_mem_replaceAll_key ' ' _ (by decide) _))))

/-- Claim C8: on a data row whose status cell is `"not found"`, a non-empty
name makes the styling pass write the URL-encoded name as the E-cell value
and the fixed query URL built from it as the E-cell hyperlink target, while a
null or empty name leaves the E cell untouched. -/
theorem not_found_row_hyperlink (r : DataRow)
    (h : r.status = some statusNotFound) :
    (∀ nm, r.name = some nm → nm ≠ [] →
        (formatRow r).hyperlinkValue =
          some (replace_special_characters_for_hyperlink (some nm)) ∧
        (formatRow r).hyperlinkTarget =
          some (pubchem_query_url (replace_special_characters_for_hyperlink (some nm)))) ∧
    ((r.name = none ∨ r.name = some []) →
        (formatRow r).hyperlinkValue = r.hyperlinkValue ∧
        (formatRow r).hyperlinkTarget = r.hyperlinkTarget) := by
  constructor
  · intro nm hn hne
    simp [formatRow, h, fill_colors_nf, hn, hne]
  · rintro (hn | hn) <;> simp [formatRow, h, fill_colors_nf, hn]

/-- Witness for C8 at a concrete not-found row with name `"a b"`. -/
theorem not_found_row_hyperlink_witness :
    (formatRow rowNotFound).hyperlinkValue = some ("a%20b".data) ∧
    (formatRow rowNotFound).hyperlinkTarget = some (pubchem_query_url ("a%20b".data)) := by
  have h := (not_found_row_hyperlink rowNotFound rfl).1 ("a b".data) rfl (by decide)
  have e : replace_special_characters_for_hyperlink (some ("a b".data)) = "a%20b".data := by
    decide
  rw [e] at h
  exact h

/-- Claim C9: a failure in either persist step — the initial table write or
the final styled save — is caught by `main`'s `try/except`, reported as the
run's outcome, and never escapes `main`: the run ends in `saveError` instead
of an uncaught exception. -/
theorem persist_failure_reported (env : Bool → List Char → HttpResult)
    (names : List (Option (List Char)))
    (writeTable : List DataRow → Except (List Char) Unit)
    (saveFormatted : List DataRow × SummaryCounts → Except (List Char) Unit) :
    (∀ e, writeTable (buildResults env names) = Except.error e →
        main env (Except.ok names) writeTable saveFormatted = MainOutcome.saveError e) ∧
    (∀ e, writeTable (buildResults env names) = Except.ok () →
        saveFormatted (apply_formatting (buildResults env names)) = Except.error e →
        main env (Except.ok names) writeTable saveFormatted = MainOutcome.saveError e) := by
  constructor
  · intro e he
    simp [main, he]
  · intro e h1 h2
    simp [main, h1, h2]

/-- Witness for C9: a failing first persist step is reported. -/
theorem persist_failure_reported_witness :
    main envDown (Except.ok []) (fun _ => Except.error ("disk full".data))
      (fun _ => Except.ok ()) = MainOutcome.saveError ("disk full".data) :=
  (persist_failure_reported envDown [] (fun _ => Except.error ("disk full".data))
    (fun _ => Except.ok ())).1 _ rfl

/-- Claim C10: the styling pass is frame-limited: on every data row the A-D
cell values, and the fills of the A, B, C and E cells, are unchanged; the
E-cell value or target changes only when the status is `"not found"` and the
name is non-empty; and a row whose status cell is blank or holds a value
outside the `fill_colors` dict is returned entirely unchanged. -/
theorem format_row_frame (r : DataRow) :
    (formatRow r).name = r.name ∧ (formatRow r).cid = r.cid ∧
    (formatRow r).smiles = r.smiles ∧ (formatRow r).status = r.status ∧
    (formatRow r).nameFill = r.nameFill ∧ (formatRow r).cidFill = r.cidFill ∧
    (formatRow r).smilesFill = r.smilesFill ∧
    (formatRow r).hyperlinkFill = r.hyperlinkFill ∧
    (((formatRow r).hyperlinkValue ≠ r.hyperlinkValue ∨
      (formatRow r).hyperlinkTarget ≠ r.hyperlinkTarget) →
      r.status = some statusNotFound ∧ ∃ nm, r.name = some nm ∧ nm ≠ []) ∧
    (∀ st, r.status = some st → fill_colors st = none → formatRow r = r) ∧
    (r.status = none → formatRow r = r) := by
  cases hs : r.status with
  | none => simp [formatRow, hs]
  | some st =>
      cases hc : fill_colors st with
      | none => simp [formatRow, hs, hc]
      | some color =>
          by_cases hnf : st = statusNotFound
          · subst hnf
            cases hn : r.name with
            | none => simp [formatRow, hs, hc, hn]
            | some nm =>
                by_cases hne : nm = []
                · subst hne
                  simp [formatRow, hs, hc, hn]
                · simp [formatRow, hs, hc, hn, hne]
          · simp [formatRow, hs, hc, hnf]

/-- Witness for C10: a blank-status row passes through unchanged. -/
theorem format_row_frame_witness : formatRow rowBlankStatus = rowBlankStatus := by
  have h := format_row_frame rowBlankStatus
  exact h.2.2.2.2.2.2.2.2.2.2 rfl

end SmileFetcher
